import Mathlib

/-!
Verification development for the MijnBussie scraping orchestrator.

The definitions below are a shallow embedding of the Rust sources:
  * `src/errors.rs`            — failure taxonomy and the sign-in-failure journal
  * `src/webcom/webcom.rs`     — the scraper run's early sign-in gate
  * `src/webcom/deletion.rs`   — account standing and the auto-deletion check
  * `src/api/auth.rs`          — the API-key middleware
  * `src/execution/watchdog.rs`— the watchdog reconcile loop
  * `src/execution/timer.rs`   — execution-time planning
  * `src/main.rs`              — the per-user instance actor loop

I/O effects (database writes, emails, files) are modelled as flags or data
returned by the functions; nondeterminism (wall-clock time, random draws)
is passed in as explicit parameters.
-/

set_option autoImplicit false

namespace MijnBussie

/-- Embeds `SignInFailure` from `src/errors.rs` (payload of `Other` kept). -/
inductive SignInFailure
  | TooManyTries
  | IncorrectCredentials
  | WebcomDown
  | Other (msg : String)
  | Unknown
deriving DecidableEq

/-- Default of `SignInFailure` is `Unknown` (`#[default]` in `src/errors.rs`). -/
instance : Inhabited SignInFailure := ⟨SignInFailure.Unknown⟩

/-- Embeds `FailureType` from `src/errors.rs`. -/
inductive FailureType
  | TriesExceeded
  | GeckoEngine
  | SignInFailed (f : SignInFailure)
  | ConnectError
  | Other (msg : String)
  | OK
deriving DecidableEq

/-- Default of `FailureType` is `OK` (`#[default]` in `src/errors.rs`). -/
instance : Inhabited FailureType := ⟨FailureType.OK⟩

/-- Embeds `StartRequest` from `src/execution/timer.rs`. -/
inductive StartRequest
  | Timer
  | Api
  | Single
  | Force
  | Logbook
  | Name
  | IsActive
  | ExitCode
  | UserData
  | Welcome
  | Calendar
  | Delete
  | Standing
  | ExecutionFinished (code : FailureType)
deriving DecidableEq

/-- Embeds `ResumeReason` from `src/webcom/webcom.rs`. -/
inductive ResumeReason
  | Ok
  | NewPassword
  | IncorrectCredentials
  | SigninFailureReduce
deriving DecidableEq

/-- Embeds `IncorrectCredentialsCount` from `src/errors.rs`; `retry_count : i32`
is modelled as `Int`, the `u64` password hash as `Nat`. -/
structure IncorrectCredentialsCount where
  retryCount : Int
  error : Option SignInFailure
  previousPasswordHash : Option Nat
deriving DecidableEq

/-- Result of `sign_in_failed_check`: the mutated journal (`&mut self`), the
returned `ResumeReason`, and whether `send_failed_signin_mail` was invoked. -/
structure SignInCheckResult where
  counter : IncorrectCredentialsCount
  resumeReason : ResumeReason
  mailSent : Bool
deriving DecidableEq

/-- Body of `IncorrectCredentialsCount::sign_in_failed_check` (`src/errors.rs`)
after the early password-hash return: increment `retry_count`, classify the
stored error, optionally decrement on the reduce hit, then decide the mail. -/
def sign_in_failed_check_body (self : IncorrectCredentialsCount)
    (signinFailMailReduce signinFailExecutionReduce : Int) : SignInCheckResult :=
  let self1 : IncorrectCredentialsCount := { self with retryCount := self.retryCount + 1 }
  let step : IncorrectCredentialsCount × ResumeReason :=
    match self1.error with
    | some SignInFailure.IncorrectCredentials => (self1, ResumeReason.IncorrectCredentials)
    | _ =>
        if self1.retryCount.tmod signinFailExecutionReduce = 0 then
          ({ self1 with retryCount := self1.retryCount - 1 }, ResumeReason.Ok)
        else
          (self1, ResumeReason.SigninFailureReduce)
  let self2 := step.1
  let mailSent := decide (self2.retryCount.tmod signinFailMailReduce = 0) && self2.error.isSome
  ⟨self2, step.2, mailSent⟩

/-- Embeds `IncorrectCredentialsCount::sign_in_failed_check` (`src/errors.rs`).
The current password hash (`Self::get_password_hash()`, always `Ok` here) and
the two reduce knobs from `GeneralProperties` are passed as parameters.  When a
stored previous hash differs from the current one the function returns
`NewPassword` at once, leaving the journal untouched and sending no mail. -/
def sign_in_failed_check (self : IncorrectCredentialsCount) (currentPasswordHash : Nat)
    (signinFailMailReduce signinFailExecutionReduce : Int) : SignInCheckResult :=
  match self.previousPasswordHash with
  | some previousPasswordHash =>
      if previousPasswordHash ≠ currentPasswordHash then
        ⟨self, ResumeReason.NewPassword, false⟩
      else
        sign_in_failed_check_body self signinFailMailReduce signinFailExecutionReduce
  | none => sign_in_failed_check_body self signinFailMailReduce signinFailExecutionReduce

/-- Embeds the early sign-in gate of `webcom_instance` (`src/webcom/webcom.rs`
lines 179-194): when the start reason is not `Force` and the journal's verdict
is `IncorrectCredentials` or `SigninFailureReduce`, the run returns
`SignInFailed(stored error, defaulting to Unknown)` before `get_driver` is
called; `some code` is that early exit, `none` means the run proceeds to the
browser session. -/
def webcom_signin_gate (startReason : StartRequest) (resumeReason : ResumeReason)
    (failureCounterError : Option SignInFailure) : Option FailureType :=
  if startReason ≠ StartRequest.Force then
    if resumeReason = ResumeReason.IncorrectCredentials ∨
        resumeReason = ResumeReason.SigninFailureReduce then
      some (FailureType.SignInFailed (failureCounterError.getD SignInFailure.Unknown))
    else
      none
  else
    none

/-- Embeds `DeletedReason` variants used by `src/webcom/deletion.rs`. -/
inductive DeletedReason
  | Manual
  | OldAge
  | NewDead
deriving DecidableEq

/-- Chrono `Duration::days` in seconds; `NaiveDateTime` values are modelled as
seconds on an absolute axis. -/
def durationDays (d : Int) : Int := d * 86400

/-- Embeds `AUTO_DELETE_DURATION` (`src/webcom/deletion.rs`): 31 days. -/
def AUTO_DELETE_DURATION : Int := durationDays 31

/-- Embeds `FRESH_DELETE_DURATION` (`src/webcom/deletion.rs`): 1 day. -/
def FRESH_DELETE_DURATION : Int := durationDays 1

/-- The slice of `UserData` read by `InstanceStanding::get_standing`; dates are
seconds (see `durationDays`). -/
structure UserSnapshot where
  autoDeleteAccount : Bool
  lastSuccesfullSignInDate : Option Int
  lastExecutionDate : Option Int
  creationDate : Int
deriving DecidableEq

/-- Embeds `InstanceStanding` from `src/webcom/deletion.rs`. -/
inductive InstanceStanding
  | Safe
  | Fresh
  | InDanger
  | AlmostDeleted
  | MustDelete
  | MustDeleteFresh
deriving DecidableEq

/-- Embeds `InstanceStanding::get_standing` (`src/webcom/deletion.rs`); `now`
is `Utc::now().naive_utc()` in seconds.  `unwrap_or_default()` on the optional
`last_execution_date` is `getD 0` (epoch). -/
def get_standing (user : UserSnapshot) (now : Int) : InstanceStanding :=
  if !user.autoDeleteAccount then
    InstanceStanding.Safe
  else
    match user.lastSuccesfullSignInDate with
    | some signInDate =>
        if signInDate = user.lastExecutionDate.getD 0 then
          InstanceStanding.Safe
        else if now - signInDate ≥ AUTO_DELETE_DURATION then
          InstanceStanding.MustDelete
        else if now - signInDate ≥ AUTO_DELETE_DURATION - durationDays 7 then
          InstanceStanding.AlmostDeleted
        else
          InstanceStanding.InDanger
    | none =>
        if now - user.creationDate ≥ FRESH_DELETE_DURATION then
          InstanceStanding.MustDeleteFresh
        else
          InstanceStanding.Fresh

/-- Effects performed by `check_instance_standing` (`src/webcom/deletion.rs`):
marker-file removal/creation, the deletion-warning mail, the account deletion
with its reason, and the returned kill flag. -/
structure StandingEffects where
  removeMarker : Bool
  sendDeletionWarning : Bool
  writeMarker : Bool
  deleteAccount : Option DeletedReason
  killInstance : Bool
deriving DecidableEq

/-- Embeds `check_instance_standing` (`src/webcom/deletion.rs` lines 130-157).
The `warning_sent` marker's existence is the `warningSentExists` parameter.
On `AlmostDeleted` the warning mail is sent and the marker written with no
check of the marker; on `Safe` an existing marker is removed. -/
def check_instance_standing (user : UserSnapshot) (now : Int)
    (warningSentExists : Bool) : StandingEffects :=
  match get_standing user now with
  | InstanceStanding.Safe =>
      if warningSentExists then
        ⟨true, false, false, none, false⟩
      else
        ⟨false, false, false, none, false⟩
  | InstanceStanding.AlmostDeleted => ⟨false, true, true, none, false⟩
  | InstanceStanding.MustDelete => ⟨false, false, false, some DeletedReason.OldAge, true⟩
  | InstanceStanding.MustDeleteFresh => ⟨false, false, false, some DeletedReason.NewDead, true⟩
  | _ => ⟨false, false, false, none, false⟩

/-- The query parameters of a request, as the `HashMap` collected in
`check_api_key` (`src/api/auth.rs`) from `form_urlencoded::parse`: for a
repeated key the last pair wins. -/
def params_get (params : List (String × String)) (key : String) : Option String :=
  params.foldl (fun acc p => if p.1 = key then some p.2 else acc) none

/-- Embeds `check_api_key` (`src/api/auth.rs`): result `true` means the
middleware returns `Err(StatusCode::UNAUTHORIZED)`.  `apiKeyEnv` is the
`API_KEY` environment variable, `unwrap_or_default()` giving `""` when unset;
the rejection test is `params.get("key").is_none_or(|k| k != &api_key)`. -/
def check_api_key_rejects (params : List (String × String))
    (apiKeyEnv : Option String) : Bool :=
  let apiKey := apiKeyEnv.getD ""
  match params_get params "key" with
  | none => true
  | some requestKey => requestKey ≠ apiKey

/-- Embeds `KumaAction` from `src/kuma.rs`. -/
inductive KumaAction
  | Add
  | Reset
  | Delete
deriving DecidableEq

/-- Embeds `KumaUserRequest` from `src/kuma.rs`. -/
inductive KumaUserRequest
  | All
  | Users (users : List String)
deriving DecidableEq

/-- Embeds `WatchdogRequest` from `src/execution/watchdog.rs`. -/
inductive WatchdogRequest
  | SingleUser (user : String)
  | KumaRequest (req : KumaAction × KumaUserRequest)
  | AllUser
  | FirstTime
deriving DecidableEq

/-- The request `main` pushes into the watchdog channel at boot
(`src/main.rs` line 434: `watchdog_tx.try_send(WatchdogRequest::AllUser)`). -/
def boot_watchdog_request : WatchdogRequest := WatchdogRequest.AllUser

/-- The branch one iteration of `watchdog` (`src/execution/watchdog.rs`
lines 131-169) takes for a given channel wakeup. -/
inductive WatchdogBranch
  | updateSingleUser (user : String)
  | kumaManage (req : KumaAction × KumaUserRequest)
  | channelClosed
  | reconcile (firstRun : Bool)
deriving DecidableEq

/-- Dispatch of one `watchdog` iteration on `channel_wait`.  `none` is the
30-minute timeout `Err(_)`, `some none` is `Ok(None)` (channel closed),
`some (some r)` is `Ok(Some(r))`.  The reconcile branch receives
`first_run = channel_wait.eq(&Ok(Some(WatchdogRequest::FirstTime)))`. -/
def watchdog_dispatch (channelWait : Option (Option WatchdogRequest)) : WatchdogBranch :=
  match channelWait with
  | some (some (WatchdogRequest.SingleUser user)) => WatchdogBranch.updateSingleUser user
  | some (some (WatchdogRequest.KumaRequest req)) => WatchdogBranch.kumaManage req
  | some none => WatchdogBranch.channelClosed
  | _ => WatchdogBranch.reconcile (channelWait = some (some WatchdogRequest.FirstTime))

/-- Embeds `InstanceState` from `src/execution/watchdog.rs`. -/
inductive InstanceState
  | New
  | Remain
  | Remove
deriving DecidableEq

/-- Instance names are the `HashMap` keys of the instance map. -/
abbrev InstanceName := String

/-- The `HashMap<InstanceName, InstanceState>` of `start_stop_instances`,
modelled as an association list with unique keys. -/
abbrev StateMap := List (InstanceName × InstanceState)

/-- `HashMap::get` on the state map. -/
def stateGet (m : StateMap) (k : InstanceName) : Option InstanceState :=
  match m with
  | [] => none
  | p :: rest => if p.1 = k then some p.2 else stateGet rest k

/-- `HashMap::insert` on the state map: overwrite an existing key in place,
otherwise append. -/
def stateInsert (m : StateMap) (k : InstanceName) (v : InstanceState) : StateMap :=
  match m with
  | [] => [(k, v)]
  | p :: rest => if p.1 = k then (k, v) :: rest else p :: stateInsert rest k v

/-- First loop of `start_stop_instances`: every live instance key starts as
`Remove`. -/
def initialStates (activeInstances : List InstanceName) : StateMap :=
  activeInstances.foldl (fun m k => stateInsert m k InstanceState.Remove) []

/-- Second loop body of `start_stop_instances`: a database user already in
the state map becomes `Remain`, an unknown one is inserted as `New`. -/
def classifyStep (m : StateMap) (dbUser : InstanceName) : StateMap :=
  match stateGet m dbUser with
  | some _ => stateInsert m dbUser InstanceState.Remain
  | none => stateInsert m dbUser InstanceState.New

/-- The full classification of `start_stop_instances`
(`src/execution/watchdog.rs` lines 179-191). -/
def classifyInstances (activeInstances dbUsers : List InstanceName) : StateMap :=
  dbUsers.foldl classifyStep (initialStates activeInstances)

/-- Embeds `get_equal_instances` (`src/execution/watchdog.rs` lines 341-361):
keys with the wanted state; for non-`New` states the key is resolved through
the live instance map (`get_key_value`). -/
def get_equal_instances (state : InstanceState) (instancesState : StateMap)
    (activeInstances : List InstanceName) : List InstanceName :=
  instancesState.filterMap (fun p =>
    if p.2 = state then
      match state with
      | InstanceState.New => some p.1
      | _ => if p.1 ∈ activeInstances then some p.1 else none
    else none)

/-- `HashMap::insert` of a fresh `UserInstance`, restricted to the key set. -/
def mapInsertKey (m : List InstanceName) (k : InstanceName) : List InstanceName :=
  if k ∈ m then m else m ++ [k]

/-- Embeds `add_instances` (`src/execution/watchdog.rs` lines 312-339) on the
key set of the instance map; `UserInstanceData::load_user` is taken to
succeed for every user listed by the database. -/
def add_instances (instancesToAdd : List InstanceName)
    (activeInstances : List InstanceName) : List InstanceName :=
  instancesToAdd.foldl mapInsertKey activeInstances

/-- Embeds `refresh_instances` (`src/execution/watchdog.rs` lines 290-310):
an in-place refresh leaves the key set unchanged; keys missing from the map
are collected and re-added through `add_instances`. -/
def refresh_instances (instancesToRefresh : List InstanceName)
    (activeInstances : List InstanceName) : List InstanceName :=
  add_instances (instancesToRefresh.filter (fun k => k ∉ activeInstances)) activeInstances

/-- Embeds `stop_instances` (`src/execution/watchdog.rs` lines 280-288):
abort each worker and remove its key from the map. -/
def stop_instances (instancesToStop : List InstanceName)
    (activeInstances : List InstanceName) : List InstanceName :=
  instancesToStop.foldl (fun m k => m.filter (fun x => x ≠ k)) activeInstances

/-- Embeds `start_stop_instances` (`src/execution/watchdog.rs` lines 172-223)
on the key set of the instance map: classify, diff into the three sets, add,
refresh, run the kuma monitor sync unless `first_run`, then stop.  Returns the
final key set together with whether `kuma::manage_users` was executed
(`kuma::manage_users` itself never touches the instance map). -/
def start_stop_instances (activeInstances dbUsers : List InstanceName)
    (firstRun : Bool) : List InstanceName × Bool :=
  let instancesState := classifyInstances activeInstances dbUsers
  let instancesToRemove := get_equal_instances InstanceState.Remove instancesState activeInstances
  let instancesToRefresh := get_equal_instances InstanceState.Remain instancesState activeInstances
  let instancesToAdd := get_equal_instances InstanceState.New instancesState activeInstances
  let afterAdd := add_instances instancesToAdd activeInstances
  let afterRefresh := refresh_instances instancesToRefresh afterAdd
  let kumaExecuted := !firstRun
  (stop_instances instancesToRemove afterRefresh, kumaExecuted)

/-- A `time::Time` value: hour, minute, second of a wall-clock time of day. -/
structure RTime where
  hour : Nat
  minute : Nat
  second : Nat
deriving DecidableEq

/-- Addition `time::Time + Duration::minutes(m)`, which wraps around the day;
seconds are unaffected by whole-minute addition. -/
def timeAddMinutes (t : RTime) (m : Int) : RTime :=
  let total := (((t.hour * 60 + t.minute : Nat) : Int) + m).emod 1440
  ⟨total.toNat / 60, total.toNat % 60, t.second⟩

/-- Addition `time::Time + Duration::hours(h)`. -/
def timeAddHours (t : RTime) (h : Int) : RTime := timeAddMinutes t (60 * h)

/-- `time::Time::replace_minute`, which fails (`Err`) when the minute is out
of range. -/
def timeReplaceMinute (t : RTime) (minute : Nat) : Option RTime :=
  if minute ≤ 59 then some ⟨t.hour, minute, t.second⟩ else none

/-- The Rust cast `as u8` on an `i32`: truncation to the low byte. -/
def toU8 (x : Int) : Nat := (x.emod 256).toNat

/-- The `interval_hours` computed by `calculate_first_execution_time_simple`
(`src/execution/timer.rs` lines 53-56): `execution_interval / 60` (`i32`
division), bumped to 1 when it is 0.  `rand::random_range(0..=interval_hours)`
draws the random hour from `[0, interval_hours]`. -/
def interval_hours_first (executionInterval : Int) : Int :=
  let ih := executionInterval.tdiv 60
  if ih = 0 then ih + 1 else ih

/-- Embeds `calculate_first_execution_time_simple` (`src/execution/timer.rs`
lines 50-72).  `now0` is `get_system_time_zero_seconds()` and
`randomExecutionHour` the value drawn by `rand::random_range`, legal when it
lies in `[0, interval_hours_first executionInterval]`.  The minute becomes
`execution_minute` when the current minute is below it or the draw is
nonzero; otherwise `current minute + 1` when that is a valid minute. -/
def calculate_first_execution_time_simple (now0 : RTime) (randomExecutionHour : Int)
    (executionInterval executionMinute : Int) : RTime :=
  let executionTime := timeAddHours now0 randomExecutionHour
  match timeReplaceMinute executionTime (toU8 executionMinute) with
  | some adjustedStart =>
      if now0.minute < toU8 executionMinute ∨ randomExecutionHour ≠ 0 then
        adjustedStart
      else
        match timeReplaceMinute executionTime (now0.minute + 1) with
        | some adjustedStart2 => adjustedStart2
        | none => executionTime
  | none =>
      match timeReplaceMinute executionTime (now0.minute + 1) with
      | some adjustedStart2 => adjustedStart2
      | none => executionTime

/-- Embeds `calculate_initial_execution_time` (`src/execution/timer.rs` lines
77-119).  `elapsedMinutes` is
`get_naive_datetime().signed_duration_since(last_execution_timestamp).num_minutes()`,
`none` standing for an absent `last_execution_timestamp`.  Note the source
applies `replace_minute` to the variable `next_execution_time`, still holding
`Time::from_hms(0, 0, 0)`, not to the freshly computed
`next_execution_time_local`. -/
def calculate_initial_execution_time (now0 : RTime) (elapsedMinutes : Option Int)
    (executionInterval executionMinute : Int) (randomExecutionHour : Int) : RTime :=
  match elapsedMinutes with
  | none =>
      calculate_first_execution_time_simple now0 randomExecutionHour
        executionInterval executionMinute
  | some elapsed =>
      let nextExecutionTime : RTime := ⟨0, 0, 0⟩
      let timeUntilNextExecution := executionInterval - elapsed
      if timeUntilNextExecution > 0 then
        let nextExecutionTimeLocal := timeAddMinutes now0 timeUntilNextExecution
        match timeReplaceMinute nextExecutionTime (toU8 executionMinute) with
        | some adjusted => adjusted
        | none => nextExecutionTimeLocal
      else
        calculate_first_execution_time_simple now0 randomExecutionHour
          executionInterval executionMinute

/-- Minutes from `now` forward to `t` on the 24-hour clock (wrapping). -/
def minutesAfter (now t : RTime) : Int :=
  (((t.hour * 60 + t.minute : Nat) : Int) - ((now.hour * 60 + now.minute : Nat) : Int)).emod 1440

/-- The scraper `JoinHandle` slot of a user instance (`webcom_thread` in
`user_instance`, `src/main.rs`): empty, a live task, or a task that has
finished with an exit code. -/
inductive ScraperThread
  | noThread
  | running
  | finished (code : FailureType)
deriving DecidableEq

/-- Embeds `is_webcom_instance_active` (`src/main.rs` lines 243-247):
`Some` handle and not finished. -/
def is_webcom_instance_active (threadStore : ScraperThread) : Bool :=
  threadStore = ScraperThread.running

/-- Outcome of `spawn_webcom_instance`: the returned `bool` and the two
`&mut` slots it may write. -/
structure SpawnOutcome where
  launched : Bool
  threadStore : ScraperThread
  lastExitCode : FailureType
deriving DecidableEq

/-- Embeds `spawn_webcom_instance` (`src/main.rs` lines 212-241): a live task
means return `false` and change nothing; otherwise a finished task's exit code
is joined into `last_exit_code` first, and a fresh scraper task is spawned. -/
def spawn_webcom_instance (threadStore : ScraperThread)
    (lastExitCode : FailureType) : SpawnOutcome :=
  match threadStore with
  | ScraperThread.running => ⟨false, ScraperThread.running, lastExitCode⟩
  | ScraperThread.finished code => ⟨true, ScraperThread.running, code⟩
  | ScraperThread.noThread => ⟨true, ScraperThread.running, lastExitCode⟩

/-- Embeds `RequestResponse` (`src/execution/watchdog.rs`); payloads that are
read from disk or the database (logbook, user data, standing, name, generic
strings) are elided, the `Active` and `ExitCode` payloads are kept. -/
inductive RequestResponse
  | Logbook
  | Name
  | Active (b : Bool)
  | ExitCode (code : FailureType)
  | UserData
  | GenResponse
  | InstanceStanding
deriving DecidableEq

/-- The mutable state of the `user_instance` actor loop (`src/main.rs`
lines 278-281). -/
structure InstanceLoopState where
  webcomThread : ScraperThread
  lastExitCode : FailureType
  instanceActive : Bool
deriving DecidableEq

/-- One step of the actor loop: successor state, the response sent to the
outbox (when any), and whether a new scraper task was spawned. -/
structure StepResult where
  state : InstanceLoopState
  response : Option RequestResponse
  spawnedScraper : Bool
deriving DecidableEq

/-- Embeds one iteration of the `user_instance` request loop (`src/main.rs`
lines 283-352).  Query requests leave the state alone; `Api` and the
fall-through triggers (`Timer`, `Single`, `Force`) go through
`spawn_webcom_instance`; `ExecutionFinished` runs only side effects
(timestamps, standing check, logging) and sends no response; `Delete` aborts
the scraper task and ends the loop; after the response, a `Single` request
ends the loop. -/
def user_instance_step (st : InstanceLoopState) (startRequest : StartRequest) : StepResult :=
  let result : StepResult :=
    match startRequest with
    | StartRequest.Logbook => ⟨st, some RequestResponse.Logbook, false⟩
    | StartRequest.Name => ⟨st, some RequestResponse.Name, false⟩
    | StartRequest.IsActive =>
        ⟨st, some (RequestResponse.Active (is_webcom_instance_active st.webcomThread)), false⟩
    | StartRequest.Api =>
        let s := spawn_webcom_instance st.webcomThread st.lastExitCode
        ⟨{ st with webcomThread := s.threadStore, lastExitCode := s.lastExitCode },
          some (RequestResponse.Active s.launched), s.launched⟩
    | StartRequest.ExitCode => ⟨st, some (RequestResponse.ExitCode st.lastExitCode), false⟩
    | StartRequest.UserData => ⟨st, some RequestResponse.UserData, false⟩
    | StartRequest.Welcome => ⟨st, some RequestResponse.GenResponse, false⟩
    | StartRequest.Calendar => ⟨st, some RequestResponse.GenResponse, false⟩
    | StartRequest.ExecutionFinished _ => ⟨st, none, false⟩
    | StartRequest.Delete =>
        ⟨{ st with instanceActive := false, webcomThread := ScraperThread.noThread },
          some RequestResponse.GenResponse, false⟩
    | StartRequest.Standing => ⟨st, some RequestResponse.InstanceStanding, false⟩
    | _ =>
        let s := spawn_webcom_instance st.webcomThread st.lastExitCode
        ⟨{ st with webcomThread := s.threadStore, lastExitCode := s.lastExitCode },
          none, s.launched⟩
  if startRequest = StartRequest.Single then
    { result with state := { result.state with instanceActive := false } }
  else
    result

/-- C1: while the instance's scraper task is spawned and not finished, an
execution trigger (`Timer`, `Api`, `Force`, `Single`) launches no new scraper
task and leaves the loop state unchanged (`Single` only ends the loop), and an
`Api` trigger makes the instance respond `Active(false)`. -/
theorem running_trigger_spawns_nothing (st : InstanceLoopState)
    (h : st.webcomThread = ScraperThread.running) :
    (user_instance_step st StartRequest.Timer).spawnedScraper = false ∧
    (user_instance_step st StartRequest.Api).spawnedScraper = false ∧
    (user_instance_step st StartRequest.Force).spawnedScraper = false ∧
    (user_instance_step st StartRequest.Single).spawnedScraper = false ∧
    (user_instance_step st StartRequest.Api).response
      = some (RequestResponse.Active false) ∧
    (user_instance_step st StartRequest.Timer).state = st ∧
    (user_instance_step st StartRequest.Api).state = st ∧
    (user_instance_step st StartRequest.Force).state = st ∧
    (user_instance_step st StartRequest.Single).state.webcomThread = st.webcomThread := by
  obtain ⟨t, e, a⟩ := st
  simp only at h
  subst h
  exact ⟨rfl, rfl, rfl, rfl, rfl, rfl, rfl, rfl, rfl⟩

/-- Witness for `running_trigger_spawns_nothing` at a concrete running state. -/
theorem running_trigger_spawns_nothing_witness :
    (⟨ScraperThread.running, FailureType.OK, true⟩ : InstanceLoopState).webcomThread
        = ScraperThread.running ∧
    (user_instance_step ⟨ScraperThread.running, FailureType.OK, true⟩
        StartRequest.Api).response = some (RequestResponse.Active false) :=
  ⟨rfl, (running_trigger_spawns_nothing ⟨ScraperThread.running, FailureType.OK, true⟩ rfl).2.2.2.2.1⟩

/-- C2 (code bug): at boot `main` sends `WatchdogRequest::AllUser`, not
`FirstTime`, so the watchdog's first wakeup dispatches to the reconcile branch
with `first_run = false` and `kuma::manage_users` (monitor create/delete) does
run during the first reconcile; the skip exists but only for a `FirstTime`
request, which nothing ever sends. -/
theorem boot_request_runs_kuma_on_first_reconcile :
    boot_watchdog_request ≠ WatchdogRequest.FirstTime ∧
    watchdog_dispatch (some (some boot_watchdog_request)) = WatchdogBranch.reconcile false ∧
    (start_stop_instances [] ["alice"] false).2 = true ∧
    (start_stop_instances [] ["alice"] true).2 = false := by
  refine ⟨?_, ?_, ?_, ?_⟩ <;> decide

/-- C4 (counterexample): with `last_exit_code = OK`, handling
`ExecutionFinished(ConnectError)` and then servicing an `ExitCode` query
returns `OK`, not `ConnectError`: the handler does not store the finished
code. -/
theorem execution_finished_stale_exit_code_cex :
    (user_instance_step
        (user_instance_step
            ⟨ScraperThread.finished FailureType.ConnectError, FailureType.OK, true⟩
            (StartRequest.ExecutionFinished FailureType.ConnectError)).state
        StartRequest.ExitCode).response = some (RequestResponse.ExitCode FailureType.OK) ∧
    FailureType.OK ≠ FailureType.ConnectError := by
  exact ⟨rfl, by decide⟩

/-- C4 (amended): handling `ExecutionFinished(code)` leaves `last_exit_code`
unchanged, so an `ExitCode` query serviced before any later run returns the
previous value; `last_exit_code` is set to `code` only when a later execution
trigger joins the finished task inside `spawn_webcom_instance`. -/
theorem execution_finished_keeps_last_exit_code (st : InstanceLoopState) (code : FailureType)
    (h : st.webcomThread = ScraperThread.finished code) :
    (user_instance_step st (StartRequest.ExecutionFinished code)).state.lastExitCode
        = st.lastExitCode ∧
    (user_instance_step st StartRequest.ExitCode).response
        = some (RequestResponse.ExitCode st.lastExitCode) ∧
    (user_instance_step st StartRequest.Api).state.lastExitCode = code := by
  refine ⟨rfl, rfl, ?_⟩
  simp [user_instance_step, spawn_webcom_instance, h]

/-- Witness for `execution_finished_keeps_last_exit_code` at a concrete
finished-task state. -/
theorem execution_finished_keeps_last_exit_code_witness :
    (user_instance_step
        ⟨ScraperThread.finished FailureType.ConnectError, FailureType.OK, true⟩
        (StartRequest.ExecutionFinished FailureType.ConnectError)).state.lastExitCode
      = FailureType.OK ∧
    (user_instance_step
        ⟨ScraperThread.finished FailureType.ConnectError, FailureType.OK, true⟩
        StartRequest.ExitCode).response = some (RequestResponse.ExitCode FailureType.OK) ∧
    (user_instance_step
        ⟨ScraperThread.finished FailureType.ConnectError, FailureType.OK, true⟩
        StartRequest.Api).state.lastExitCode = FailureType.ConnectError :=
  execution_finished_keeps_last_exit_code
    ⟨ScraperThread.finished FailureType.ConnectError, FailureType.OK, true⟩
    FailureType.ConnectError rfl

/-- C5: whenever the journal stores a previous password hash different from
the current one, `sign_in_failed_check` returns `NewPassword` and the run
proceeds, whatever the stored error (including `IncorrectCredentials`) and
whatever the retry count; the journal is left untouched and no mail is sent. -/
theorem new_password_hash_wins (self : IncorrectCredentialsCount)
    (currentPasswordHash : Nat) (signinFailMailReduce signinFailExecutionReduce : Int)
    (storedHash : Nat) (hstored : self.previousPasswordHash = some storedHash)
    (hdiff : storedHash ≠ currentPasswordHash) :
    sign_in_failed_check self currentPasswordHash signinFailMailReduce
        signinFailExecutionReduce
      = ⟨self, ResumeReason.NewPassword, false⟩ := by
  unfold sign_in_failed_check
  rw [hstored]
  simp [hdiff]

/-- Witness for `new_password_hash_wins`: stored `IncorrectCredentials` error
and retry count 5 do not matter once the hash differs. -/
theorem new_password_hash_wins_witness :
    (⟨5, some SignInFailure.IncorrectCredentials, some 1⟩ :
        IncorrectCredentialsCount).previousPasswordHash = some 1 ∧
    (1 : Nat) ≠ 2 ∧
    sign_in_failed_check ⟨5, some SignInFailure.IncorrectCredentials, some 1⟩ 2 3 4
      = ⟨⟨5, some SignInFailure.IncorrectCredentials, some 1⟩,
          ResumeReason.NewPassword, false⟩ :=
  ⟨rfl, by decide,
    new_password_hash_wins ⟨5, some SignInFailure.IncorrectCredentials, some 1⟩ 2 3 4 1
      rfl (by decide)⟩

/-- C6 (code bug): in the `remaining > 0` branch, the source applies
`replace_minute` to the still-zero `next_execution_time` instead of the
computed `now + remaining`; with a valid execution minute the function
returns `00:minute:00` instead of `now + remaining` (claimed at most
`now + interval` minutes away).  At `now = 12:00:00`, 30 minutes elapsed of a
60-minute interval and execution minute 15, the code yields `00:15:00`, which
is neither `12:30` nor `12:15` and lies 735 minutes ahead of `now`. -/
theorem initial_execution_time_midnight_bug :
    calculate_initial_execution_time ⟨12, 0, 0⟩ (some 30) 60 15 0 = ⟨0, 15, 0⟩ ∧
    timeAddMinutes ⟨12, 0, 0⟩ (60 - 30) = ⟨12, 30, 0⟩ ∧
    ((⟨0, 15, 0⟩ : RTime) ≠ ⟨12, 15, 0⟩ ∧ (⟨0, 15, 0⟩ : RTime) ≠ ⟨12, 30, 0⟩) ∧
    ¬ minutesAfter ⟨12, 0, 0⟩ ⟨0, 15, 0⟩ ≤ 60 := by
  refine ⟨?_, ?_, ⟨?_, ?_⟩, ?_⟩ <;> decide

/-- C7 (counterexample): the random hour bound of the first-plan path for a
1440-minute interval is 24, not the claimed `clamp(1440/60, 1, 2) = 2`, and
the legal draw 3 yields a time 210 minutes after `now`, beyond 2 hours. -/
theorem first_plan_hour_bound_not_clamped_cex :
    interval_hours_first 1440 = 24 ∧
    interval_hours_first 1440 ≠ max 1 (min 2 (Int.tdiv 1440 60)) ∧
    (0 ≤ (3 : Int) ∧ (3 : Int) ≤ interval_hours_first 1440) ∧
    calculate_first_execution_time_simple ⟨8, 0, 0⟩ 3 1440 30 = ⟨11, 30, 0⟩ ∧
    ¬ minutesAfter ⟨8, 0, 0⟩ (calculate_first_execution_time_simple ⟨8, 0, 0⟩ 3 1440 30)
        ≤ 120 := by
  refine ⟨?_, ?_, ⟨?_, ?_⟩, ?_, ?_⟩ <;> decide

/-- C7 (amended): the random hour offset is drawn from `[0, h]` with
`h = max(1, intervalMin / 60)` — there is no saturation at 2 — and for
`intervalMin = 1440` the bound `h` is 24, so the planned time may lie up to
24 hours after `now`. -/
theorem first_plan_hour_bound_max :
    (∀ executionInterval : Int, 0 ≤ executionInterval →
        interval_hours_first executionInterval = max 1 (executionInterval.tdiv 60)) ∧
    interval_hours_first 1440 = 24 := by
  constructor
  · intro i hi
    have hd : 0 ≤ i.tdiv 60 := Int.tdiv_nonneg hi (by norm_num)
    simp only [interval_hours_first]
    rcases eq_or_ne (i.tdiv 60) 0 with h | h
    · simp [h]
    · rw [if_neg h, max_eq_right (by omega : (1 : Int) ≤ i.tdiv 60)]
  · decide

/-- Witness for `first_plan_hour_bound_max` at interval 120. -/
theorem first_plan_hour_bound_max_witness :
    interval_hours_first 120 = max 1 (Int.tdiv 120 60) ∧ interval_hours_first 1440 = 24 :=
  ⟨first_plan_hour_bound_max.1 120 (by decide), first_plan_hour_bound_max.2⟩

/-- C8 (counterexample): a user whose standing computes to `AlmostDeleted`
gets the deletion warning sent and the marker rewritten even though the
`warning_sent` marker already exists — the source checks no marker on this
branch. -/
theorem deletion_warning_resent_with_marker_cex :
    get_standing ⟨true, some 0, some 1, 0⟩ (durationDays 25) = InstanceStanding.AlmostDeleted ∧
    (check_instance_standing ⟨true, some 0, some 1, 0⟩ (durationDays 25)
        true).sendDeletionWarning = true ∧
    (check_instance_standing ⟨true, some 0, some 1, 0⟩ (durationDays 25)
        true).writeMarker = true := by
  refine ⟨?_, ?_, ?_⟩ <;> decide

/-- C8 (amended): whenever the computed standing is `AlmostDeleted`, the
deletion warning is sent and the marker file written unconditionally,
regardless of whether the marker already exists. -/
theorem almost_deleted_always_warns (user : UserSnapshot) (now : Int)
    (warningSentExists : Bool)
    (h : get_standing user now = InstanceStanding.AlmostDeleted) :
    check_instance_standing user now warningSentExists = ⟨false, true, true, none, false⟩ := by
  unfold check_instance_standing
  rw [h]

/-- Witness for `almost_deleted_always_warns` with the marker present. -/
theorem almost_deleted_always_warns_witness :
    get_standing ⟨true, some 0, some 2, 0⟩ (durationDays 25) = InstanceStanding.AlmostDeleted ∧
    check_instance_standing ⟨true, some 0, some 2, 0⟩ (durationDays 25) true
      = ⟨false, true, true, none, false⟩ :=
  ⟨by decide,
    almost_deleted_always_warns ⟨true, some 0, some 2, 0⟩ (durationDays 25) true (by decide)⟩

/-- C9: a `Force` start bypasses the sign-in-failure journal's skip verdict
entirely, while for every other start reason a verdict of
`IncorrectCredentials` or `SigninFailureReduce` ends the run before the
browser session starts, with exit code `SignInFailed` of the stored error,
defaulting to `Unknown`. -/
theorem force_bypasses_signin_gate :
    (∀ (resumeReason : ResumeReason) (err : Option SignInFailure),
        webcom_signin_gate StartRequest.Force resumeReason err = none) ∧
    (∀ (startReason : StartRequest) (resumeReason : ResumeReason)
        (err : Option SignInFailure),
        startReason ≠ StartRequest.Force →
        (resumeReason = ResumeReason.IncorrectCredentials ∨
          resumeReason = ResumeReason.SigninFailureReduce) →
        webcom_signin_gate startReason resumeReason err
          = some (FailureType.SignInFailed (err.getD SignInFailure.Unknown))) := by
  constructor
  · intro r e
    simp [webcom_signin_gate]
  · intro s r e hs hr
    rcases hr with rfl | rfl <;> simp [webcom_signin_gate, hs]

/-- Witness for `force_bypasses_signin_gate`: a `Timer` run with verdict
`IncorrectCredentials` and an empty journal error exits with
`SignInFailed(Unknown)`. -/
theorem force_bypasses_signin_gate_witness :
    StartRequest.Timer ≠ StartRequest.Force ∧
    webcom_signin_gate StartRequest.Timer ResumeReason.IncorrectCredentials none
      = some (FailureType.SignInFailed SignInFailure.Unknown) :=
  ⟨by decide,
    force_bypasses_signin_gate.2 StartRequest.Timer ResumeReason.IncorrectCredentials none
      (by decide) (Or.inl rfl)⟩

/-- C10: the API-key middleware rejects a request with 401 precisely when the
query string carries no `key` parameter or its value differs from the
`API_KEY` environment variable (empty when unset); in particular with
`API_KEY` unset, a request with an empty `key=` parameter is authorized. -/
theorem api_key_rejection_iff :
    (∀ (params : List (String × String)) (apiKeyEnv : Option String),
        check_api_key_rejects params apiKeyEnv = true ↔
          (params_get params "key" = none ∨
            ∃ v, params_get params "key" = some v ∧ v ≠ apiKeyEnv.getD "")) ∧
    check_api_key_rejects [("key", "")] none = false := by
  constructor
  · intro params apiKeyEnv
    unfold check_api_key_rejects
    cases h : params_get params "key" with
    | none => simp [h]
    | some v => simp [h]
  · rfl

/-- The state map has pairwise-distinct keys, as a `HashMap` does. -/
def stateKeysNodup (m : StateMap) : Prop := (m.map Prod.fst).Nodup

theorem stateGet_stateInsert (m : StateMap) (k k' : InstanceName) (v : InstanceState) :
    stateGet (stateInsert m k v) k' = if k = k' then some v else stateGet m k' := by
  induction m with
  | nil => simp [stateInsert, stateGet]
  | cons p rest ih =>
      simp only [stateInsert, stateGet]
      by_cases h1 : p.1 = k
      · simp only [if_pos h1, stateGet]
        by_cases h2 : k = k'
        · simp [h2]
        · have hp : ¬ p.1 = k' := by rw [h1]; exact h2
          simp [h2, hp]
      · simp only [if_neg h1, stateGet, ih]
        by_cases h2 : p.1 = k'
        · have hkk : ¬ k = k' := by
            intro hh
            exact h1 (by rw [hh, h2])
          simp [h2, hkk]
        · simp [h2]

theorem mem_keys_stateInsert (m : StateMap) (k x : InstanceName) (v : InstanceState) :
    x ∈ (stateInsert m k v).map Prod.fst ↔ x ∈ m.map Prod.fst ∨ x = k := by
  induction m with
  | nil => simp [stateInsert]
  | cons p rest ih =>
      simp only [stateInsert]
      by_cases h1 : p.1 = k
      · rw [if_pos h1, ← h1]
        simp only [List.map_cons, List.mem_cons]
        tauto
      · rw [if_neg h1]
        simp only [List.map_cons, List.mem_cons, ih]
        tauto

theorem stateKeysNodup_stateInsert (m : StateMap) (k : InstanceName) (v : InstanceState)
    (h : stateKeysNodup m) : stateKeysNodup (stateInsert m k v) := by
  induction m with
  | nil => simp [stateInsert, stateKeysNodup]
  | cons p rest ih =>
      simp only [stateKeysNodup, List.map_cons, List.nodup_cons] at h
      have h2 : stateKeysNodup rest := h.2
      simp only [stateInsert]
      by_cases h1 : p.1 = k
      · rw [if_pos h1, ← h1]
        simpa [stateKeysNodup, List.nodup_cons] using h
      · rw [if_neg h1]
        have h3 := ih h2
        simp only [stateKeysNodup, List.map_cons, List.nodup_cons, mem_keys_stateInsert]
        refine ⟨?_, h3⟩
        rintro (hmem | rfl)
        · exact h.1 hmem
        · exact h1 rfl

theorem mem_iff_stateGet (m : StateMap) (k : InstanceName) (v : InstanceState)
    (h : stateKeysNodup m) : (k, v) ∈ m ↔ stateGet m k = some v := by
  induction m with
  | nil => simp [stateGet]
  | cons p rest ih =>
      obtain ⟨p1, p2⟩ := p
      simp only [stateKeysNodup, List.map_cons, List.nodup_cons] at h
      have ihr := ih (by simpa [stateKeysNodup] using h.2)
      simp only [List.mem_cons, stateGet, Prod.mk.injEq]
      by_cases hk : p1 = k
      · subst hk
        rw [if_pos rfl]
        constructor
        · rintro (⟨-, rfl⟩ | hmem)
          · rfl
          · exact absurd (List.mem_map_of_mem Prod.fst hmem) h.1
        · intro hv
          exact Or.inl ⟨rfl, (Option.some_inj.mp hv).symm⟩
      · rw [if_neg hk, ← ihr]
        constructor
        · rintro (⟨rfl, -⟩ | hmem)
          · exact absurd rfl hk
          · exact hmem
        · exact Or.inr

theorem stateGet_initialStates_aux (active : List InstanceName) (m0 : StateMap)
    (k : InstanceName) :
    stateGet (active.foldl (fun m x => stateInsert m x InstanceState.Remove) m0) k
      = if k ∈ active then some InstanceState.Remove else stateGet m0 k := by
  induction active generalizing m0 with
  | nil => simp
  | cons a rest ih =>
      simp only [List.foldl_cons, ih, stateGet_stateInsert, List.mem_cons]
      by_cases h : k ∈ rest
      · simp [h]
      · by_cases h2 : a = k
        · simp [h, h2]
        · have h3 : ¬ k = a := fun hh => h2 hh.symm
          simp [h, h2, h3]

theorem stateGet_initialStates (active : List InstanceName) (k : InstanceName) :
    stateGet (initialStates active) k
      = if k ∈ active then some InstanceState.Remove else none := by
  simpa [stateGet] using stateGet_initialStates_aux active [] k

theorem stateKeysNodup_initialStates (active : List InstanceName) :
    stateKeysNodup (initialStates active) := by
  have haux : ∀ (l : List InstanceName) (m0 : StateMap), stateKeysNodup m0 →
      stateKeysNodup (l.foldl (fun m x => stateInsert m x InstanceState.Remove) m0) := by
    intro l
    induction l with
    | nil => exact fun m0 h => h
    | cons a rest ih => exact fun m0 h => ih _ (stateKeysNodup_stateInsert _ _ _ h)
  exact haux active [] (by simp [stateKeysNodup])

theorem stateGet_classifyStep (m : StateMap) (u k : InstanceName) :
    stateGet (classifyStep m u) k =
      if u = k then
        some (if (stateGet m u).isSome then InstanceState.Remain else InstanceState.New)
      else stateGet m k := by
  unfold classifyStep
  cases h : stateGet m u <;> simp [stateGet_stateInsert, h]

theorem stateKeysNodup_classifyInstances (active db : List InstanceName) :
    stateKeysNodup (classifyInstances active db) := by
  have haux : ∀ (l : List InstanceName) (m0 : StateMap), stateKeysNodup m0 →
      stateKeysNodup (l.foldl classifyStep m0) := by
    intro l
    induction l with
    | nil => exact fun m0 h => h
    | cons u rest ih =>
        intro m0 h
        refine ih _ ?_
        unfold classifyStep
        cases stateGet m0 u <;> exact stateKeysNodup_stateInsert _ _ _ h
  exact haux db _ (stateKeysNodup_initialStates active)

theorem stateGet_classify_foldl_not_mem (db : List InstanceName) (m0 : StateMap)
    (k : InstanceName) (hk : k ∉ db) :
    stateGet (db.foldl classifyStep m0) k = stateGet m0 k := by
  induction db generalizing m0 with
  | nil => simp
  | cons u rest ih =>
      simp only [List.foldl_cons]
      have hku : ¬ u = k := by
        intro h
        exact hk (h ▸ List.mem_cons_self u rest)
      rw [ih _ (fun h => hk (List.mem_cons_of_mem u h)), stateGet_classifyStep, if_neg hku]

theorem stateGet_classify_foldl_mem (db : List InstanceName) (m0 : StateMap)
    (k : InstanceName) (hk : k ∈ db) (hnd : db.Nodup) :
    stateGet (db.foldl classifyStep m0) k
      = some (if (stateGet m0 k).isSome then InstanceState.Remain else InstanceState.New) := by
  induction db generalizing m0 with
  | nil => cases hk
  | cons u rest ih =>
      simp only [List.foldl_cons]
      rcases List.mem_cons.mp hk with rfl | hmem
      · have hnotin : k ∉ rest := (List.nodup_cons.mp hnd).1
        rw [stateGet_classify_foldl_not_mem rest _ k hnotin, stateGet_classifyStep, if_pos rfl]
      · by_cases hu : u = k
        · exact absurd hmem (hu ▸ (List.nodup_cons.mp hnd).1)
        · rw [ih _ hmem (List.nodup_cons.mp hnd).2, stateGet_classifyStep, if_neg hu]

theorem stateGet_classifyInstances (active db : List InstanceName) (k : InstanceName)
    (hnd : db.Nodup) :
    stateGet (classifyInstances active db) k =
      if k ∈ db then
        (if k ∈ active then some InstanceState.Remain else some InstanceState.New)
      else
        (if k ∈ active then some InstanceState.Remove else none) := by
  unfold classifyInstances
  by_cases hdb : k ∈ db
  · rw [stateGet_classify_foldl_mem db _ k hdb hnd, stateGet_initialStates]
    by_cases ha : k ∈ active <;> simp [hdb, ha]
  · rw [stateGet_classify_foldl_not_mem db _ k hdb, stateGet_initialStates]
    simp [hdb]

theorem mem_get_equal_instances (state : InstanceState) (m : StateMap)
    (active : List InstanceName) (k : InstanceName) (h : stateKeysNodup m) :
    k ∈ get_equal_instances state m active ↔
      stateGet m k = some state ∧ (state = InstanceState.New ∨ k ∈ active) := by
  unfold get_equal_instances
  rw [List.mem_filterMap]
  constructor
  · rintro ⟨⟨k1, v1⟩, hmem, hf⟩
    by_cases hv : v1 = state
    · subst hv
      rw [if_pos rfl] at hf
      cases v1 with
      | New =>
          change some k1 = some k at hf
          rw [Option.some_inj.mp hf] at hmem
          exact ⟨(mem_iff_stateGet m k _ h).mp hmem, Or.inl rfl⟩
      | Remain =>
          change (if k1 ∈ active then some k1 else none) = some k at hf
          by_cases hact : k1 ∈ active
          · rw [if_pos hact] at hf
            rw [Option.some_inj.mp hf] at hmem hact
            exact ⟨(mem_iff_stateGet m k _ h).mp hmem, Or.inr hact⟩
          · rw [if_neg hact] at hf
            cases hf
      | Remove =>
          change (if k1 ∈ active then some k1 else none) = some k at hf
          by_cases hact : k1 ∈ active
          · rw [if_pos hact] at hf
            rw [Option.some_inj.mp hf] at hmem hact
            exact ⟨(mem_iff_stateGet m k _ h).mp hmem, Or.inr hact⟩
          · rw [if_neg hact] at hf
            cases hf
    · rw [if_neg hv] at hf
      cases hf
  · rintro ⟨hget, hcase⟩
    refine ⟨(k, state), (mem_iff_stateGet m k state h).mpr hget, ?_⟩
    rcases hcase with rfl | hact
    · simp
    · cases state <;> simp [hact]

theorem mem_mapInsertKey (m : List InstanceName) (a k : InstanceName) :
    k ∈ mapInsertKey m a ↔ k ∈ m ∨ k = a := by
  unfold mapInsertKey
  by_cases h : a ∈ m
  · rw [if_pos h]
    constructor
    · exact Or.inl
    · rintro (hm | rfl)
      · exact hm
      · exact h
  · rw [if_neg h]
    simp [List.mem_append]

theorem mem_add_instances (toAdd active : List InstanceName) (k : InstanceName) :
    k ∈ add_instances toAdd active ↔ k ∈ active ∨ k ∈ toAdd := by
  unfold add_instances
  induction toAdd generalizing active with
  | nil => simp
  | cons a rest ih =>
      simp only [List.foldl_cons, ih, mem_mapInsertKey, List.mem_cons]
      tauto

theorem mem_refresh_instances (toRefresh active : List InstanceName) (k : InstanceName) :
    k ∈ refresh_instances toRefresh active ↔ k ∈ active ∨ k ∈ toRefresh := by
  unfold refresh_instances
  rw [mem_add_instances]
  simp only [List.mem_filter, decide_eq_true_eq]
  by_cases h : k ∈ active <;> simp [h]

theorem mem_stop_instances (toStop active : List InstanceName) (k : InstanceName) :
    k ∈ stop_instances toStop active ↔ k ∈ active ∧ k ∉ toStop := by
  unfold stop_instances
  induction toStop generalizing active with
  | nil => simp
  | cons a rest ih =>
      simp only [List.foldl_cons, ih, List.mem_filter, decide_eq_true_eq, List.mem_cons]
      constructor
      · rintro ⟨⟨hm, hne⟩, hrest⟩
        refine ⟨hm, ?_⟩
        rintro (rfl | hr)
        · exact hne rfl
        · exact hrest hr
      · rintro ⟨hm, hnot⟩
        exact ⟨⟨hm, fun hh => hnot (Or.inl hh)⟩, fun hr => hnot (Or.inr hr)⟩

/-- C3: after a reconcile, the key set of the live instance map equals the set
of user names listed by the database (user loads taken to succeed): live
instances missing from the database are stopped and removed, database users
without an instance are added, users in both are refreshed in place. -/
theorem reconcile_keys_eq_db_users (activeInstances dbUsers : List InstanceName)
    (firstRun : Bool) (hnd : dbUsers.Nodup) (k : InstanceName) :
    k ∈ (start_stop_instances activeInstances dbUsers firstRun).1 ↔ k ∈ dbUsers := by
  unfold start_stop_instances
  have hkn := stateKeysNodup_classifyInstances activeInstances dbUsers
  simp only [mem_stop_instances, mem_refresh_instances, mem_add_instances,
    mem_get_equal_instances _ _ _ _ hkn, stateGet_classifyInstances _ _ _ hnd]
  by_cases hdb : k ∈ dbUsers <;> by_cases ha : k ∈ activeInstances <;> simp [hdb, ha]

/-- Witness for `reconcile_keys_eq_db_users`: database `{a, c}` against live
instances `{a, b}`. -/
theorem reconcile_keys_eq_db_users_witness :
    (["a", "c"] : List InstanceName).Nodup ∧
    (("c" : InstanceName) ∈ (start_stop_instances ["a", "b"] ["a", "c"] false).1 ↔
      ("c" : InstanceName) ∈ (["a", "c"] : List InstanceName)) :=
  ⟨by decide, reconcile_keys_eq_db_users ["a", "b"] ["a", "c"] false (by decide) "c"⟩

end MijnBussie
